import Mathlib

/-!
# The breeder repository

A shallow embedding of `pkg/repository/breeder.go` and `model/breeder.go`.

* `model.Owner`, `model.Breeder`: the entity records.
* `Statement`: the SQL statement constants of the repository, with their text.
* `DB σ`: the relational-store client (`*sql.DB`) the repository is handed by
  its host, as an interface over a store state `σ`.  The repository methods
  are embedded once, over an arbitrary client.
* `Store`, `memDB`: an in-memory relational store executing the statements,
  behind the argument handling of `database/sql`.
* `recorder`: a client that accepts every call and records it.

A method that writes through a pointer (`*model.Breeder`, `*model.Owner`)
returns the pointee after the call in the `value` field of its `Outcome`.
Logging and the context argument have no effect on results and are left out.
-/

set_option autoImplicit false

namespace model

/-- Owner model is used as part of breeder struct. -/
structure Owner where
  ID : Int
  Forename : String
  Surname : String
  Address : String
  Email : String
deriving DecidableEq, Repr

/-- Breeder model.  `Owners` is a Go slice: `none` is the nil slice, `some l`
a non-nil slice with elements `l`. -/
structure Breeder where
  ID : Int
  Affix : String
  ShortAffix : String
  Website : String
  Owners : Option (List Owner)
deriving DecidableEq, Repr

/-- The zero value `model.Breeder{}`. -/
def Breeder.zero : Breeder :=
  { ID := 0, Affix := "", ShortAffix := "", Website := "", Owners := none }

end model

open model

/-- Go `len` on a slice: the nil slice has length 0. -/
def len {α : Type} : Option (List α) → Nat
  | none => 0
  | some l => l.length

/-- Elements of a slice, as `range` visits them. -/
def elems {α : Type} : Option (List α) → List α
  | none => []
  | some l => l

/-- Go `reflect.DeepEqual` on two `model.Breeder` values: integers and strings
by `==`, slices equal when both are nil or both are non-nil with the same
length and deeply equal elements. -/
def DeepEqual (a b : Breeder) : Bool := decide (a = b)

/-- Go errors of the repository: the sentinel `errRepo`, `errors.Wrap`, and an
error raised by the database client. -/
inductive Error where
  | errRepo
  | wrap (cause : Error) (message : String)
  | sql (message : String)
deriving DecidableEq, Repr

/-- The SQL statement constants. -/
inductive Statement where
  | InsertBreeder
  | InsertOwner
  | AssociateBreederOwner
  | UpdateBreeder
  | UpdateOwner
  | SelectBreeder
  | SelectOwner
  | SelectOwnerByBreeder
  | DeleteBreeder
  | DeleteOwner
  | UnassociateBreederOwner
deriving DecidableEq, Repr

/-- Text of each statement constant. -/
def Statement.text : Statement → String
  | .InsertBreeder =>
    "\n        INSERT INTO breeders(affix, short_affix, website)\n        VALUES(?, ?, ?)\n    "
  | .InsertOwner =>
    "\n        INSERT INTO owners(breeder_id, forename, surname, address, email)\n        VALUES(?, ?, ?, ?, ?)\n    "
  | .AssociateBreederOwner =>
    "\n        INSERT INTO breeder_owners(breeder_id, owner_id)\n        VALUES(?, ?)\n    "
  | .UpdateBreeder =>
    "\n        UPDATE breeders SET affix = ?, short_affix = ?, website = ?\n        WHERE id = ?\n    "
  | .UpdateOwner =>
    "\n        UPDATE owners SET forename = ?, surname = ?, address = ?, email = ?\n        WHERE id = ?\n    "
  | .SelectBreeder => "\n        SELECT * FROM breeders WHERE id = ?\n    "
  | .SelectOwner => "\n        SELECT * FROM owners WHERE id = ?\n    "
  | .SelectOwnerByBreeder => "\n        SELECT * FROM owners WHERE breeder_id = ?\n    "
  | .DeleteBreeder => "\n        UPDATE breeders SET active = 0 WHERE id = ?\n    "
  | .DeleteOwner => "\n        UPDATE owners SET active = 0 WHERE id = ?\n    "
  | .UnassociateBreederOwner =>
    "\n        DELETE FROM breeder_owners WHERE breeder_id = ? AND owner_id = ?\n    "

/-- Number of `?` placeholders in the text of a statement. -/
def placeholders (st : Statement) : Nat :=
  (st.text.toList.filter (fun c => c == '?')).length

/-- An argument handed to `Exec` or `Query` (an `interface{}` value): a string,
an int, or a `*model.Breeder`. -/
inductive Arg where
  | str (s : String)
  | int (n : Int)
  | breeder (b : Breeder)
deriving DecidableEq, Repr

/-- The `sql.Result` of an execution. -/
structure Result where
  LastInsertId : Except Error Int

/-- The `*sql.Rows` of a query: the rows not yet visited and the current row,
which is absent until `Next` has been called. -/
structure Rows where
  pending : List (List Arg)
  lastcols : Option (List Arg)

/-- `rows.Scan(&breeder)` with a single `*model.Breeder` destination, as
`database/sql` does it: without a current row it fails ("Scan called without
calling Next"); with one it fails on the number of destinations or on the
unsupported destination type.  The destination is never written. -/
def Rows.Scan (rows : Rows) (dest : Breeder) : Option Error × Breeder :=
  match rows.lastcols with
  | none => (some (.sql "sql: Scan called without calling Next"), dest)
  | some cols =>
    if cols.length ≠ 1 then
      (some (.sql "sql: wrong number of destination arguments in Scan"), dest)
    else
      (some (.sql "sql: Scan error: unsupported Scan into *model.Breeder"), dest)

/-- The relational-store client the repository consumes, over a store state
`σ`.  `PrepareContext` reports the error, if any; a failed `Exec` or `Query`
leaves the state as it was. -/
structure DB (σ : Type) where
  PrepareContext : σ → Statement → Option Error
  Exec : σ → Statement → List Arg → Except Error (Result × σ)
  Query : σ → Statement → List Arg → Except Error (Rows × σ)

/-- What a repository method leaves behind: the error it returns (`none` for
nil), the value it returns or the pointee it was handed, and the store. -/
structure Outcome (σ α : Type) where
  err : Option Error
  value : α
  store : σ

namespace repo

variable {σ : Type}

/-- Method `CreateOwner`.  `int(id)` is the identity, `int` being 64 bits
wide. -/
def CreateOwner (db : DB σ) (s : σ) (breederID : Int) (owner : Owner) : Outcome σ Owner :=
  match db.PrepareContext s .InsertOwner with
  | some err => ⟨some (.wrap err "Failed to prepate insert owner statement"), owner, s⟩
  | none =>
    if owner.Forename = "" ∨ owner.Surname = "" ∨ owner.Address = "" ∨ owner.Email = "" then
      ⟨some .errRepo, owner, s⟩
    else
      match db.Exec s .InsertOwner
          [.int breederID, .str owner.Forename, .str owner.Surname, .str owner.Address,
            .str owner.Email] with
      | .error err => ⟨some (.wrap err "Failed to execute prepated statement"), owner, s⟩
      | .ok (result, s1) =>
        match result.LastInsertId with
        | .error err => ⟨some (.wrap err "Failed to get last insert id"), owner, s1⟩
        | .ok id => ⟨none, { owner with ID := id }, s1⟩

/-- The loop `for idx := range breeder.Owners` of `CreateBreeder`: one
`CreateOwner` on each element in place, its returned error dropped. -/
def createOwners (db : DB σ) (breederID : Int) : σ → List Owner → List Owner × σ
  | s, [] => ([], s)
  | s, o :: os =>
    let r := CreateOwner db s breederID o
    let rest := createOwners db breederID r.store os
    (r.value :: rest.1, rest.2)

/-- Method `CreateBreeder`.  The fourth argument of `Exec` is the breeder
pointer itself.  `int(id)` is the identity, `int` being 64 bits wide. -/
def CreateBreeder (db : DB σ) (s : σ) (breeder : Breeder) : Outcome σ Breeder :=
  match db.PrepareContext s .InsertBreeder with
  | some err => ⟨some (.wrap err "Failed to prepare insert breeder statement"), breeder, s⟩
  | none =>
    if breeder.Affix = "" ∨ len breeder.Owners = 0 ∨ breeder.ShortAffix = "" ∨
        breeder.Website = "" then
      ⟨some .errRepo, breeder, s⟩
    else
      match db.Exec s .InsertBreeder
          [.str breeder.Affix, .str breeder.ShortAffix, .str breeder.Website,
            .breeder breeder] with
      | .error err =>
        ⟨some (.wrap err "Failed to execute prepared insert statement"), breeder, s⟩
      | .ok (result, s1) =>
        match result.LastInsertId with
        | .error err => ⟨some (.wrap err "Failed to get last insert id"), breeder, s1⟩
        | .ok id =>
          let done := createOwners db id s1 (elems breeder.Owners)
          ⟨none, { breeder with ID := id, Owners := breeder.Owners.map (fun _ => done.1) },
            done.2⟩

/-- Method `AssociateBreederOwner`. -/
def AssociateBreederOwner (db : DB σ) (s : σ) (breederID ownerID : Int) : Outcome σ Unit :=
  match db.PrepareContext s .AssociateBreederOwner with
  | some err => ⟨some (.wrap err "Failed to prepare associate breeder with owner"), (), s⟩
  | none =>
    match db.Exec s .AssociateBreederOwner [.int breederID, .int ownerID] with
    | .error err =>
      ⟨some (.wrap err "Failed to execute associate breeder with owner statement"), (), s⟩
    | .ok (_, s1) => ⟨none, (), s1⟩

/-- Method `UpdateOwner`. -/
def UpdateOwner (db : DB σ) (s : σ) (owner : Owner) : Outcome σ Owner :=
  match db.PrepareContext s .UpdateOwner with
  | some err => ⟨some (.wrap err "Failed to prepare update owner statement"), owner, s⟩
  | none =>
    match db.Exec s .UpdateOwner
        [.str owner.Forename, .str owner.Surname, .str owner.Address, .str owner.Email,
          .int owner.ID] with
    | .error err => ⟨some (.wrap err "Failed to execute prepared update statement"), owner, s⟩
    | .ok (_, s1) => ⟨none, owner, s1⟩

/-- The loop `for idx := range breeder.Owners` of `UpdateBreeder`. -/
def updateOwners (db : DB σ) : σ → List Owner → List Owner × σ
  | s, [] => ([], s)
  | s, o :: os =>
    let r := UpdateOwner db s o
    let rest := updateOwners db r.store os
    (r.value :: rest.1, rest.2)

/-- Method `UpdateBreeder`. -/
def UpdateBreeder (db : DB σ) (s : σ) (breeder : Breeder) : Outcome σ Breeder :=
  match db.PrepareContext s .UpdateBreeder with
  | some err => ⟨some (.wrap err "Failed to prepate update breeder statement"), breeder, s⟩
  | none =>
    match db.Exec s .UpdateBreeder
        [.str breeder.Affix, .str breeder.ShortAffix, .str breeder.Website,
          .int breeder.ID] with
    | .error err => ⟨some (.wrap err "Failed to execute prepared statement"), breeder, s⟩
    | .ok (_, s1) =>
      let done := updateOwners db s1 (elems breeder.Owners)
      ⟨none, { breeder with Owners := breeder.Owners.map (fun _ => done.1) }, done.2⟩

/-- Method `DeleteBreeder`. -/
def DeleteBreeder (db : DB σ) (s : σ) (id : Int) : Outcome σ Unit :=
  match db.PrepareContext s .DeleteBreeder with
  | some err => ⟨some (.wrap err "Failed to prepare delete breeder statement"), (), s⟩
  | none =>
    match db.Exec s .DeleteBreeder [.int id] with
    | .error err => ⟨some (.wrap err "Failed to execute delete breeder statement"), (), s⟩
    | .ok (_, s1) => ⟨none, (), s1⟩

/-- Method `DeleteOwner`. -/
def DeleteOwner (db : DB σ) (s : σ) (id : Int) : Outcome σ Unit :=
  match db.PrepareContext s .DeleteOwner with
  | some err => ⟨some (.wrap err "Failed to prepate delete owner statement"), (), s⟩
  | none =>
    match db.Exec s .DeleteOwner [.int id] with
    | .error err => ⟨some (.wrap err "Failed to execute delete owner"), (), s⟩
    | .ok (_, s1) => ⟨none, (), s1⟩

/-- Method `GetBreeder`.  The error of `rows.Scan` is dropped. -/
def GetBreeder (db : DB σ) (s : σ) (id : Int) : Outcome σ Breeder :=
  let breeder := Breeder.zero
  match db.PrepareContext s .SelectBreeder with
  | some err => ⟨some (.wrap err "Failed to prepate get breeder statement"), breeder, s⟩
  | none =>
    match db.Query s .SelectBreeder [.int id] with
    | .error err => ⟨some (.wrap err "Failed to execute get breeder statement"), breeder, s⟩
    | .ok (rows, s1) => ⟨none, (rows.Scan breeder).2, s1⟩

/-- Method `CheckBreederNeedsUpdating`. -/
def CheckBreederNeedsUpdating (db : DB σ) (s : σ) (breeder : Breeder) : Outcome σ Bool :=
  let got := GetBreeder db s breeder.ID
  match got.err with
  | some err => ⟨some (.wrap err "Failed to get breeder"), false, got.store⟩
  | none =>
    let equal := DeepEqual breeder got.value
    ⟨none, equal, got.store⟩

end repo

/-! ## An in-memory relational store -/

/-- Modelled from the spec: the schema is not part of the source.  A row of
relation `breeders`: the columns the statements name, the generated `id` and
the `active` flag. -/
structure BreederRow where
  id : Int
  affix : String
  short_affix : String
  website : String
  active : Bool
deriving DecidableEq, Repr

/-- Modelled from the spec: the schema is not part of the source.  A row of
relation `owners`: the columns the statements name (`breeder_id` among them),
the generated `id` and the `active` flag. -/
structure OwnerRow where
  id : Int
  breeder_id : Int
  forename : String
  surname : String
  address : String
  email : String
  active : Bool
deriving DecidableEq, Repr

/-- The persisted state: relations `breeders`, `owners` and `breeder_owners`,
rows in insertion order. -/
structure Store where
  breeders : List BreederRow
  owners : List OwnerRow
  breeder_owners : List (Int × Int)
deriving DecidableEq, Repr

/-- The store without rows. -/
def Store.empty : Store := { breeders := [], owners := [], breeder_owners := [] }

/-- Modelled from the spec: identities are integer surrogate keys assigned by
storage on insert.  The generated identity of an inserted row is one more than
the largest identity in the relation, and at least 1. -/
def nextId (ids : List Int) : Int := ids.foldl max 0 + 1

/-- The largest identity a row can carry: the largest `int64`, the type
`LastInsertId` reports.  An insert that would need a larger one is refused. -/
def maxId : Int := 9223372036854775807

/-- Clears the `active` flag of a breeder row. -/
def BreederRow.deactivate (r : BreederRow) : BreederRow := { r with active := false }

/-- Clears the `active` flag of an owner row. -/
def OwnerRow.deactivate (r : OwnerRow) : OwnerRow := { r with active := false }

/-- Execution of a statement with bound arguments on the store.  An insert
appends a row with a generated `id` and `active` set, and reports the `id`; it
is refused when the generated `id` would exceed `maxId`.  An update rewrites the named columns of the rows its `WHERE` selects; the two
delete statements of the repository are updates of `active`.  An insert into
`breeder_owners` of a pair already there violates the uniqueness constraint
the specification puts on the pair.  Arguments that do not fit the
placeholders are an error. -/
def Store.run (s : Store) (st : Statement) (args : List Arg) : Except Error (Result × Store) :=
  match st with
  | .InsertBreeder =>
    match args with
    | [.str affix, .str shortAffix, .str website] =>
      let id := nextId (s.breeders.map (fun r => r.id))
      if id ≤ maxId then
        .ok (⟨.ok id⟩,
          { s with breeders := s.breeders ++ [⟨id, affix, shortAffix, website, true⟩] })
      else .error (.sql "generated identity out of range")
    | _ => .error (.sql "arguments do not fit the statement")
  | .InsertOwner =>
    match args with
    | [.int breederID, .str forename, .str surname, .str address, .str email] =>
      let id := nextId (s.owners.map (fun r => r.id))
      if id ≤ maxId then
        .ok (⟨.ok id⟩, { s with owners :=
          s.owners ++ [⟨id, breederID, forename, surname, address, email, true⟩] })
      else .error (.sql "generated identity out of range")
    | _ => .error (.sql "arguments do not fit the statement")
  | .AssociateBreederOwner =>
    match args with
    | [.int breederID, .int ownerID] =>
      if (breederID, ownerID) ∈ s.breeder_owners then
        .error (.sql "duplicate entry for breeder_owners")
      else
        .ok (⟨.ok 0⟩, { s with breeder_owners := s.breeder_owners ++ [(breederID, ownerID)] })
    | _ => .error (.sql "arguments do not fit the statement")
  | .UpdateBreeder =>
    match args with
    | [.str affix, .str shortAffix, .str website, .int id] =>
      .ok (⟨.ok 0⟩, { s with breeders := s.breeders.map (fun r =>
        if r.id = id then { r with affix := affix, short_affix := shortAffix, website := website }
        else r) })
    | _ => .error (.sql "arguments do not fit the statement")
  | .UpdateOwner =>
    match args with
    | [.str forename, .str surname, .str address, .str email, .int id] =>
      .ok (⟨.ok 0⟩, { s with owners := s.owners.map (fun r =>
        if r.id = id then
          { r with forename := forename, surname := surname, address := address, email := email }
        else r) })
    | _ => .error (.sql "arguments do not fit the statement")
  | .DeleteBreeder =>
    match args with
    | [.int id] =>
      .ok (⟨.ok 0⟩, { s with breeders := s.breeders.map (fun r =>
        if r.id = id then r.deactivate else r) })
    | _ => .error (.sql "arguments do not fit the statement")
  | .DeleteOwner =>
    match args with
    | [.int id] =>
      .ok (⟨.ok 0⟩, { s with owners := s.owners.map (fun r =>
        if r.id = id then r.deactivate else r) })
    | _ => .error (.sql "arguments do not fit the statement")
  | .UnassociateBreederOwner =>
    match args with
    | [.int breederID, .int ownerID] =>
      .ok (⟨.ok 0⟩, { s with breeder_owners :=
        s.breeder_owners.filter (fun p => !(p.1 == breederID && p.2 == ownerID)) })
    | _ => .error (.sql "arguments do not fit the statement")
  | _ =>
    match args with
    | [.int _] => .ok (⟨.ok 0⟩, s)
    | _ => .error (.sql "arguments do not fit the statement")

/-- Columns of a breeder row, in schema order. -/
def BreederRow.cols (r : BreederRow) : List Arg :=
  [.int r.id, .str r.affix, .str r.short_affix, .str r.website, .int (if r.active then 1 else 0)]

/-- Columns of an owner row, in schema order. -/
def OwnerRow.cols (r : OwnerRow) : List Arg :=
  [.int r.id, .int r.breeder_id, .str r.forename, .str r.surname, .str r.address, .str r.email,
    .int (if r.active then 1 else 0)]

/-- Rows a select statement returns; none of the three filters on `active`.
A statement that is not a select has no result rows. -/
def Store.select (s : Store) (st : Statement) (args : List Arg) : Except Error (List (List Arg)) :=
  match st, args with
  | .SelectBreeder, [.int id] =>
    .ok ((s.breeders.filter (fun r => r.id == id)).map BreederRow.cols)
  | .SelectOwner, [.int id] =>
    .ok ((s.owners.filter (fun r => r.id == id)).map OwnerRow.cols)
  | .SelectOwnerByBreeder, [.int id] =>
    .ok ((s.owners.filter (fun r => r.breeder_id == id)).map OwnerRow.cols)
  | .SelectBreeder, _ => .error (.sql "arguments do not fit the statement")
  | .SelectOwner, _ => .error (.sql "arguments do not fit the statement")
  | .SelectOwnerByBreeder, _ => .error (.sql "arguments do not fit the statement")
  | _, _ => .ok []

/-- The driver behind `*sql.DB`.  `standard` reports the number of
placeholders of a prepared statement (`NumInput`) and converts arguments with
the default converter, as the MySQL driver named in `cmd/main.go` does.
The repository runs behind `standard`.  `lenient` is not a driver the
repository names: it is a client that lets the breeder insert through, of the
kind the `database/sql/driver` contract permits (no placeholder count, so
`database/sql` compares no counts; its own argument check removes arguments
that are not database values), kept to exercise the code after the insert. -/
inductive Driver where
  | standard
  | lenient
deriving DecidableEq, Repr

/-- Whether an argument converts to a database value: a struct does not. -/
def Arg.isValue : Arg → Bool
  | .breeder _ => false
  | _ => true

/-- Ordinal of the first argument that does not convert to a database value,
counting from `n`. -/
def firstNonValue : List Arg → Nat → Option Nat
  | [], _ => none
  | a :: rest, n => if a.isValue then firstNonValue rest (n + 1) else some n

/-- The argument check `database/sql` runs before a statement reaches the
driver: every argument is converted in order, the first that does not convert
being reported with its ordinal; then, when the driver reports its placeholder
count, the number of arguments is compared with it. -/
def driverArgs (d : Driver) (st : Statement) (args : List Arg) : Except Error (List Arg) :=
  match d with
  | .standard =>
    match firstNonValue args 1 with
    | some n =>
      .error (.sql ("sql: converting argument $" ++ toString n ++
        " type: unsupported type model.Breeder, a struct"))
    | none =>
      if args.length = placeholders st then .ok args
      else
        .error (.sql ("sql: expected " ++ toString (placeholders st) ++ " arguments, got " ++
          toString args.length))
  | .lenient => .ok (args.filter Arg.isValue)

/-- The in-memory store as a client, behind driver `d`.  Preparing a statement
of the repository succeeds; rows of a query start without a current row. -/
def memDB (d : Driver) : DB Store where
  PrepareContext := fun _ _ => none
  Exec := fun s st args =>
    match driverArgs d st args with
    | .error err => .error err
    | .ok vals => s.run st vals
  Query := fun s st args =>
    match driverArgs d st args with
    | .error err => .error err
    | .ok vals =>
      match s.select st vals with
      | .error err => .error err
      | .ok rows => .ok (⟨rows, none⟩, s)

/-- One recorded execution: the statement and the arguments passed. -/
abbrev Call := Statement × List Arg

/-- A client that accepts every statement and records each execution and
query with its arguments, in order. -/
def recorder : DB (List Call) where
  PrepareContext := fun _ _ => none
  Exec := fun log st args => .ok (⟨.ok 1⟩, log ++ [(st, args)])
  Query := fun log st args => .ok (⟨[], none⟩, log ++ [(st, args)])

/-- Whether a recorded execution passes as many arguments as its statement has
placeholders. -/
def Call.matches (c : Call) : Bool := c.2.length == placeholders c.1

/-! ## Scenario data -/

/-- Owner of the scenario of section 8 of the specification. -/
def jane : Owner :=
  { ID := 0, Forename := "Jane", Surname := "Doe", Address := "1 Elm St",
    Email := "jane@example.com" }

/-- Breeder of the scenario of section 8 of the specification. -/
def ashworth : Breeder :=
  { ID := 0, Affix := "Ashworth", ShortAffix := "ASH", Website := "ashworth.example",
    Owners := some [jane] }

/-- The scenario breeder with a second owner whose forename is empty. -/
def ashworthTwo : Breeder :=
  { ashworth with Owners := some [jane, { jane with Forename := "", Email := "joe@example.com" }] }

/-- The scenario breeder as persisted: identities 1 assigned. -/
def ashworthSaved : Breeder :=
  { ashworth with ID := 1, Owners := some [{ jane with ID := 1 }] }

/-- The store holding the scenario breeder and its owner. -/
def savedStore : Store :=
  { breeders := [⟨1, "Ashworth", "ASH", "ashworth.example", true⟩],
    owners := [⟨1, 1, "Jane", "Doe", "1 Elm St", "jane@example.com", true⟩],
    breeder_owners := [] }

/-- The owner sub-creates of `CreateBreeder` as the specification words them:
`CreateOwner` is called once for each owner, in sequence order, with breeder
ID `id`; each call starts from the store the call before it left, whether that
call failed or not; the owners the calls leave are collected in order, and an
owner whose call returned an error keeps its ID.
`OwnerCalls db id s owners out s2`: from store `s`, the calls on `owners`
leave the owners `out` and the store `s2`. -/
inductive OwnerCalls {σ : Type} (db : DB σ) (id : Int) :
    σ → List Owner → List Owner → σ → Prop where
  | done (s : σ) : OwnerCalls db id s [] [] s
  | call (s : σ) (o : Owner) (os out : List Owner) (s2 : σ)
      (keep : (repo.CreateOwner db s id o).err ≠ none →
        (repo.CreateOwner db s id o).value.ID = o.ID)
      (rest : OwnerCalls db id (repo.CreateOwner db s id o).store os out s2) :
      OwnerCalls db id s (o :: os) ((repo.CreateOwner db s id o).value :: out) s2

theorem placeholders_values :
    placeholders .InsertBreeder = 3 ∧ placeholders .InsertOwner = 5 ∧
    placeholders .AssociateBreederOwner = 2 ∧ placeholders .UpdateBreeder = 4 ∧
    placeholders .UpdateOwner = 5 ∧ placeholders .SelectBreeder = 1 ∧
    placeholders .DeleteBreeder = 1 ∧ placeholders .DeleteOwner = 1 := by
  decide

theorem memDB_prepare (d : Driver) (s : Store) (st : Statement) :
    (memDB d).PrepareContext s st = none := rfl

theorem memDB_exec_DeleteBreeder (d : Driver) (s : Store) (id : Int) :
    (memDB d).Exec s .DeleteBreeder [.int id] =
      .ok (⟨.ok 0⟩, { s with breeders := s.breeders.map (fun r =>
        if r.id = id then r.deactivate else r) }) := by
  cases d <;>
    simp [memDB, driverArgs, firstNonValue, Arg.isValue, Store.run, placeholders_values.2.2.2.2.2.2.1]

theorem memDB_exec_DeleteOwner (d : Driver) (s : Store) (id : Int) :
    (memDB d).Exec s .DeleteOwner [.int id] =
      .ok (⟨.ok 0⟩, { s with owners := s.owners.map (fun r =>
        if r.id = id then r.deactivate else r) }) := by
  cases d <;>
    simp [memDB, driverArgs, firstNonValue, Arg.isValue, Store.run, placeholders_values.2.2.2.2.2.2.2]

theorem memDB_exec_UpdateOwner (d : Driver) (s : Store) (f sn a e : String) (id : Int) :
    (memDB d).Exec s .UpdateOwner [.str f, .str sn, .str a, .str e, .int id] =
      .ok (⟨.ok 0⟩, { s with owners := s.owners.map (fun r =>
        if r.id = id then { r with forename := f, surname := sn, address := a, email := e }
        else r) }) := by
  cases d <;>
    simp [memDB, driverArgs, firstNonValue, Arg.isValue, Store.run, placeholders_values.2.2.2.2.1]

theorem memDB_query_SelectBreeder (d : Driver) (s : Store) (id : Int) :
    (memDB d).Query s .SelectBreeder [.int id] =
      .ok (⟨(s.breeders.filter (fun r => r.id == id)).map BreederRow.cols, none⟩, s) := by
  cases d <;>
    simp [memDB, driverArgs, firstNonValue, Arg.isValue, Store.select, placeholders_values.2.2.2.2.2.1]

/-- The record `GetBreeder` returns is the zero value, whatever the client
answers. -/
theorem GetBreeder_value {σ : Type} (db : DB σ) (s : σ) (id : Int) :
    (repo.GetBreeder db s id).value = Breeder.zero := by
  unfold repo.GetBreeder
  cases db.PrepareContext s .SelectBreeder with
  | some err => rfl
  | none =>
    cases h : db.Query s .SelectBreeder [.int id] with
    | error err => simp [h]
    | ok p =>
      obtain ⟨rows, s1⟩ := p
      simp only [h]
      unfold Rows.Scan
      cases rows.lastcols with
      | none => rfl
      | some cols => by_cases hc : cols.length ≠ 1 <;> simp [hc]

/-- The result of `CheckBreederNeedsUpdating` is the result of the comparison:
`true` exactly when the candidate equals the record `GetBreeder` returned. -/
theorem CheckBreederNeedsUpdating_value {σ : Type} (db : DB σ) (s : σ) (b : Breeder)
    (h : (repo.GetBreeder db s b.ID).err = none) :
    (repo.CheckBreederNeedsUpdating db s b).err = none ∧
    ((repo.CheckBreederNeedsUpdating db s b).value = true ↔
      b = (repo.GetBreeder db s b.ID).value) := by
  simp [repo.CheckBreederNeedsUpdating, h, DeepEqual]

/-- Before any statement is executed `CreateBreeder` checks its input: with an
invalid breeder and a statement that could be prepared, every client is left
untouched. -/
theorem CreateBreeder_invalid {σ : Type} (db : DB σ) (s : σ) (b : Breeder)
    (hp : db.PrepareContext s .InsertBreeder = none)
    (h : b.Affix = "" ∨ b.ShortAffix = "" ∨ b.Website = "" ∨ len b.Owners = 0) :
    repo.CreateBreeder db s b = ⟨some .errRepo, b, s⟩ := by
  have hv : b.Affix = "" ∨ len b.Owners = 0 ∨ b.ShortAffix = "" ∨ b.Website = "" := by tauto
  simp only [repo.CreateBreeder, hp, if_pos hv]

/-! ## The claims -/

/-- C1 (the code returns the opposite).  On the store holding the scenario
breeder under identity 1, `GetBreeder 1` succeeds and returns a record that
differs from the candidate, and `CheckBreederNeedsUpdating` answers `false`
(no update needed) where the claim asks for `true`. -/
theorem C1_differing_candidate_reported_unchanged :
    (repo.GetBreeder (memDB .standard) savedStore ashworthSaved.ID).err = none ∧
    ashworthSaved ≠ (repo.GetBreeder (memDB .standard) savedStore ashworthSaved.ID).value ∧
    (repo.CheckBreederNeedsUpdating (memDB .standard) savedStore ashworthSaved).err = none ∧
    (repo.CheckBreederNeedsUpdating (memDB .standard) savedStore ashworthSaved).value = false := by
  decide

/-- C2.  For every store state, under either driver, a breeder with an empty
affix, an empty short affix, an empty website or no owner makes `CreateBreeder`
return `errRepo`, leave the three relations as they were, and leave the
breeder record, its ID and its owners untouched. -/
theorem CreateBreeder_rejects_invalid (d : Driver) (s : Store) (b : Breeder)
    (h : b.Affix = "" ∨ b.ShortAffix = "" ∨ b.Website = "" ∨ len b.Owners = 0) :
    (repo.CreateBreeder (memDB d) s b).err = some .errRepo ∧
    (repo.CreateBreeder (memDB d) s b).store = s ∧
    (repo.CreateBreeder (memDB d) s b).value = b := by
  rw [CreateBreeder_invalid (memDB d) s b (memDB_prepare d s _) h]
  exact ⟨rfl, rfl, rfl⟩

theorem CreateBreeder_rejects_invalid_witness :
    (repo.CreateBreeder (memDB .standard) savedStore { ashworth with Website := "" }).err
      = some .errRepo ∧
    (repo.CreateBreeder (memDB .standard) savedStore { ashworth with Website := "" }).store
      = savedStore ∧
    (repo.CreateBreeder (memDB .standard) savedStore { ashworth with Website := "" }).value
      = { ashworth with Website := "" } :=
  CreateBreeder_rejects_invalid .standard savedStore { ashworth with Website := "" }
    (Or.inr (Or.inr (Or.inl rfl)))

/-- C3 (the code does not do this).  For the valid scenario breeder on the
empty store: with the standard driver `CreateBreeder` fails on its insert and
writes nothing; with the lenient driver it succeeds and assigns identity 1,
and the following `GetBreeder 1` returns the zero record, whose affix and
owners are not those of the input. -/
theorem C3_create_then_get_loses_the_record :
    (repo.CreateBreeder (memDB .standard) Store.empty ashworth).err =
      some (.wrap
        (.sql "sql: converting argument $4 type: unsupported type model.Breeder, a struct")
        "Failed to execute prepared insert statement") ∧
    (repo.CreateBreeder (memDB .standard) Store.empty ashworth).store = Store.empty ∧
    (repo.CreateBreeder (memDB .lenient) Store.empty ashworth).err = none ∧
    (repo.CreateBreeder (memDB .lenient) Store.empty ashworth).value.ID = 1 ∧
    (repo.GetBreeder (memDB .lenient)
      (repo.CreateBreeder (memDB .lenient) Store.empty ashworth).store 1).err = none ∧
    (repo.GetBreeder (memDB .lenient)
      (repo.CreateBreeder (memDB .lenient) Store.empty ashworth).store 1).value = Breeder.zero ∧
    Breeder.zero.Affix ≠ ashworth.Affix ∧ Breeder.zero.Owners = none := by
  decide

/-- The loop of `UpdateBreeder` records only executions whose argument count
is the placeholder count. -/
theorem updateOwners_recorder_matches (os : List Owner) (log : List Call)
    (h : log.all Call.matches = true) :
    (repo.updateOwners recorder log os).2.all Call.matches = true := by
  induction os generalizing log with
  | nil => simpa [repo.updateOwners] using h
  | cons o os ih =>
    simp only [repo.updateOwners]
    apply ih
    simp only [repo.UpdateOwner, recorder, List.all_append, h, Bool.true_and]
    simp [Call.matches, placeholders_values.2.2.2.2.1]

/-- Every execution other than the breeder insert passes as many arguments as
its statement has placeholders: the calls a recording client sees from
`CreateOwner`, `AssociateBreederOwner`, `UpdateBreeder`, `UpdateOwner`,
`DeleteBreeder`, `DeleteOwner` and `GetBreeder`, for every input. -/
theorem other_executions_match (b : Breeder) (o : Owner) (id id2 : Int) :
    (repo.CreateOwner recorder [] id o).store.all Call.matches = true ∧
    (repo.AssociateBreederOwner recorder [] id id2).store.all Call.matches = true ∧
    (repo.UpdateBreeder recorder [] b).store.all Call.matches = true ∧
    (repo.UpdateOwner recorder [] o).store.all Call.matches = true ∧
    (repo.DeleteBreeder recorder [] id).store.all Call.matches = true ∧
    (repo.DeleteOwner recorder [] id).store.all Call.matches = true ∧
    (repo.GetBreeder recorder [] id).store.all Call.matches = true := by
  refine ⟨?_, ?_, ?_, ?_, ?_, ?_, ?_⟩
  · by_cases hv : o.Forename = "" ∨ o.Surname = "" ∨ o.Address = "" ∨ o.Email = ""
    · simp [repo.CreateOwner, recorder, hv]
    · simp only [repo.CreateOwner, recorder, if_neg hv]
      simp [Call.matches, placeholders_values.2.1]
  · simp [repo.AssociateBreederOwner, recorder, Call.matches, placeholders_values.2.2.1]
  · simp only [repo.UpdateBreeder, recorder]
    apply updateOwners_recorder_matches
    simp [Call.matches, placeholders_values.2.2.2.1]
  · simp [repo.UpdateOwner, recorder, Call.matches, placeholders_values.2.2.2.2.1]
  · simp [repo.DeleteBreeder, recorder, Call.matches, placeholders_values.2.2.2.2.2.2.1]
  · simp [repo.DeleteOwner, recorder, Call.matches, placeholders_values.2.2.2.2.2.2.2]
  · simp [repo.GetBreeder, recorder, Call.matches, placeholders_values.2.2.2.2.2.1]

/-- C10 (the code does not do this).  The executions `CreateBreeder` issues
for the scenario breeder, as a recording client sees them: the insert of the
breeder passes four arguments to a statement with three placeholders, the
insert of the owner five to five. -/
theorem C10_InsertBreeder_argument_count :
    (repo.CreateBreeder recorder [] ashworth).store =
      [(.InsertBreeder,
          [.str "Ashworth", .str "ASH", .str "ashworth.example", .breeder ashworth]),
        (.InsertOwner,
          [.int 1, .str "Jane", .str "Doe", .str "1 Elm St", .str "jane@example.com"])] ∧
    placeholders .InsertBreeder = 3 ∧
    (repo.CreateBreeder recorder [] ashworth).store.map Call.matches = [false, true] := by
  decide

/-- What `DeleteBreeder` does on the in-memory store. -/
theorem DeleteBreeder_memDB (d : Driver) (s : Store) (id : Int) :
    repo.DeleteBreeder (memDB d) s id =
      ⟨none, (), { s with breeders := s.breeders.map (fun r =>
        if r.id = id then r.deactivate else r) }⟩ := by
  simp only [repo.DeleteBreeder, memDB_prepare, memDB_exec_DeleteBreeder]

/-- What `DeleteOwner` does on the in-memory store. -/
theorem DeleteOwner_memDB (d : Driver) (s : Store) (id : Int) :
    repo.DeleteOwner (memDB d) s id =
      ⟨none, (), { s with owners := s.owners.map (fun r =>
        if r.id = id then r.deactivate else r) }⟩ := by
  simp only [repo.DeleteOwner, memDB_prepare, memDB_exec_DeleteOwner]

/-- On the in-memory store `GetBreeder` returns no error. -/
theorem GetBreeder_memDB_err (d : Driver) (s : Store) (id : Int) :
    (repo.GetBreeder (memDB d) s id).err = none := by
  simp only [repo.GetBreeder, memDB_prepare, memDB_query_SelectBreeder]

/-- C6 (as stated, refuted).  On the store holding the scenario breeder,
`DeleteBreeder 1` succeeds and clears the flag of the row, and the following
`GetBreeder 1` returns no error. -/
theorem C6_get_after_delete_returns_no_error :
    (repo.DeleteBreeder (memDB .standard) savedStore 1).err = none ∧
    (repo.DeleteBreeder (memDB .standard) savedStore 1).store.breeders =
      [⟨1, "Ashworth", "ASH", "ashworth.example", false⟩] ∧
    (repo.GetBreeder (memDB .standard)
      (repo.DeleteBreeder (memDB .standard) savedStore 1).store 1).err = none := by
  decide

/-- C6 (amended).  For every store state and every id, under either driver,
`DeleteBreeder id` succeeds and the following `GetBreeder id` does not fail: it
returns no error, every row with that id being still in `breeders` with its
`active` flag cleared. -/
theorem GetBreeder_after_DeleteBreeder (d : Driver) (s : Store) (id : Int) :
    (repo.DeleteBreeder (memDB d) s id).err = none ∧
    (repo.GetBreeder (memDB d) (repo.DeleteBreeder (memDB d) s id).store id).err = none ∧
    ∀ r ∈ s.breeders, r.id = id →
      r.deactivate ∈ (repo.DeleteBreeder (memDB d) s id).store.breeders := by
  refine ⟨by rw [DeleteBreeder_memDB], GetBreeder_memDB_err d _ id, ?_⟩
  intro r hr hid
  rw [DeleteBreeder_memDB]
  exact List.mem_map.mpr ⟨r, hr, by simp [hid]⟩

/-- What `UpdateOwner` does on the in-memory store. -/
theorem UpdateOwner_memDB (d : Driver) (s : Store) (o : Owner) :
    repo.UpdateOwner (memDB d) s o =
      ⟨none, o, { s with owners := s.owners.map (fun r =>
        if r.id = o.ID then
          { r with forename := o.Forename, surname := o.Surname, address := o.Address,
                   email := o.Email }
        else r) }⟩ := by
  simp only [repo.UpdateOwner, memDB_prepare, memDB_exec_UpdateOwner]

/-- C7 (as stated, refuted).  On the empty store, `UpdateOwner` for an owner
with identity 7, which matches no row, returns no error. -/
theorem C7_update_of_missing_owner_returns_no_error :
    (∀ r ∈ Store.empty.owners, r.id ≠ ({ jane with ID := 7 } : Owner).ID) ∧
    (repo.UpdateOwner (memDB .standard) Store.empty { jane with ID := 7 }).err = none := by
  decide

/-- C7 (amended).  For every store state, under either driver, and every owner
whose ID matches no row of `owners`, `UpdateOwner` returns no error and leaves
every row of the store unchanged. -/
theorem UpdateOwner_missing_is_noop (d : Driver) (s : Store) (o : Owner)
    (h : ∀ r ∈ s.owners, r.id ≠ o.ID) :
    (repo.UpdateOwner (memDB d) s o).err = none ∧
    (repo.UpdateOwner (memDB d) s o).store = s ∧
    (repo.UpdateOwner (memDB d) s o).value = o := by
  rw [UpdateOwner_memDB]
  refine ⟨rfl, ?_, rfl⟩
  have hm : s.owners.map (fun r =>
      if r.id = o.ID then
        { r with forename := o.Forename, surname := o.Surname, address := o.Address,
                 email := o.Email }
      else r) = s.owners := by
    conv_rhs => rw [← List.map_id s.owners]
    apply List.map_congr_left
    intro r hr
    simp [h r hr]
  simp only [hm]

theorem UpdateOwner_missing_is_noop_witness :
    (repo.UpdateOwner (memDB .lenient) savedStore { jane with ID := 2 }).err = none ∧
    (repo.UpdateOwner (memDB .lenient) savedStore { jane with ID := 2 }).store = savedStore ∧
    (repo.UpdateOwner (memDB .lenient) savedStore { jane with ID := 2 }).value
      = { jane with ID := 2 } :=
  UpdateOwner_missing_is_noop .lenient savedStore { jane with ID := 2 } (by decide)

/-- C8.  For every store state and every id, under either driver:
`DeleteBreeder id` returns no error, leaves `owners` and `breeder_owners` as
they were, and leaves `breeders` with the same rows in the same places, each
with its id, affix, short affix and website unchanged and its `active` flag
cleared when its id is `id` and unchanged otherwise; `DeleteOwner id` does the
same on `owners`, leaving `breeders` and `breeder_owners` as they were. -/
theorem delete_is_logical (d : Driver) (s : Store) (id : Int) :
    (repo.DeleteBreeder (memDB d) s id).err = none ∧
    List.Forall₂
      (fun r t => t.id = r.id ∧ t.affix = r.affix ∧ t.short_affix = r.short_affix ∧
        t.website = r.website ∧ t.active = (if r.id = id then false else r.active))
      s.breeders (repo.DeleteBreeder (memDB d) s id).store.breeders ∧
    (repo.DeleteBreeder (memDB d) s id).store.owners = s.owners ∧
    (repo.DeleteBreeder (memDB d) s id).store.breeder_owners = s.breeder_owners ∧
    (repo.DeleteOwner (memDB d) s id).err = none ∧
    List.Forall₂
      (fun r t => t.id = r.id ∧ t.breeder_id = r.breeder_id ∧ t.forename = r.forename ∧
        t.surname = r.surname ∧ t.address = r.address ∧ t.email = r.email ∧
        t.active = (if r.id = id then false else r.active))
      s.owners (repo.DeleteOwner (memDB d) s id).store.owners ∧
    (repo.DeleteOwner (memDB d) s id).store.breeders = s.breeders ∧
    (repo.DeleteOwner (memDB d) s id).store.breeder_owners = s.breeder_owners := by
  rw [DeleteBreeder_memDB, DeleteOwner_memDB]
  refine ⟨rfl, ?_, rfl, rfl, rfl, ?_, rfl, rfl⟩
  · rw [List.forall₂_map_right_iff, List.forall₂_same]
    intro r _
    by_cases h : r.id = id <;> simp [h, BreederRow.deactivate]
  · rw [List.forall₂_map_right_iff, List.forall₂_same]
    intro r _
    by_cases h : r.id = id <;> simp [h, OwnerRow.deactivate]

/-- An owner whose `CreateOwner` returned an error is left as it was. -/
theorem CreateOwner_err_keeps {σ : Type} (db : DB σ) (s : σ) (id : Int) (o : Owner)
    (h : (repo.CreateOwner db s id o).err ≠ none) :
    (repo.CreateOwner db s id o).value = o := by
  unfold repo.CreateOwner at h ⊢
  cases hp : db.PrepareContext s .InsertOwner with
  | some err => rfl
  | none =>
    simp only [hp] at h ⊢
    split
    · rfl
    · cases he : db.Exec s .InsertOwner
          [.int id, .str o.Forename, .str o.Surname, .str o.Address, .str o.Email] with
      | error err => rfl
      | ok p =>
        obtain ⟨result, s1⟩ := p
        rename_i hvalid
        cases hi : result.LastInsertId with
        | error err => simp [hi]
        | ok n => simp [hvalid, he, hi] at h

/-- The loop of `CreateBreeder` makes the calls `OwnerCalls` describes. -/
theorem createOwners_calls {σ : Type} (db : DB σ) (id : Int) (os : List Owner) (s : σ) :
    OwnerCalls db id s os (repo.createOwners db id s os).1 (repo.createOwners db id s os).2 := by
  induction os generalizing s with
  | nil => exact OwnerCalls.done s
  | cons o os ih =>
    simp only [repo.createOwners]
    exact OwnerCalls.call s o os _ _
      (fun h => by rw [CreateOwner_err_keeps db s id o h]) (ih _)

/-- What `CreateBreeder` does once its insert and the read of the generated id
have succeeded. -/
theorem CreateBreeder_after_insert {σ : Type} (db : DB σ) (s s1 : σ) (b : Breeder)
    (result : Result) (id : Int)
    (hp : db.PrepareContext s .InsertBreeder = none)
    (hv : ¬ (b.Affix = "" ∨ len b.Owners = 0 ∨ b.ShortAffix = "" ∨ b.Website = ""))
    (he : db.Exec s .InsertBreeder
      [.str b.Affix, .str b.ShortAffix, .str b.Website, .breeder b] = .ok (result, s1))
    (hi : result.LastInsertId = .ok id) :
    repo.CreateBreeder db s b =
      ⟨none,
        { b with ID := id,
                 Owners := b.Owners.map (fun _ => (repo.createOwners db id s1 (elems b.Owners)).1) },
        (repo.createOwners db id s1 (elems b.Owners)).2⟩ := by
  simp only [repo.CreateBreeder, hp, if_neg hv, he, hi]

theorem elems_map_const {α : Type} (x : Option (List α)) (l : List α) (h : len x ≠ 0) :
    elems (x.map (fun _ => l)) = l := by
  cases x with
  | none => simp [len] at h
  | some _ => rfl

/-- C9.  For every client, store and breeder: once the statement was prepared,
the top-level fields passed the check, the breeder insert succeeded and the
read of its generated id gave `id`, `CreateBreeder` returns no error and sets
the breeder ID to `id`, and its owners and store are those left by calling
`CreateOwner` once per owner, in sequence order, with breeder ID `id`, each
call following the one before it whether that one failed or not, an owner
whose call failed keeping its ID. -/
theorem CreateBreeder_ignores_owner_errors {σ : Type} (db : DB σ) (s s1 : σ) (b : Breeder)
    (result : Result) (id : Int)
    (hp : db.PrepareContext s .InsertBreeder = none)
    (hv : ¬ (b.Affix = "" ∨ len b.Owners = 0 ∨ b.ShortAffix = "" ∨ b.Website = ""))
    (he : db.Exec s .InsertBreeder
      [.str b.Affix, .str b.ShortAffix, .str b.Website, .breeder b] = .ok (result, s1))
    (hi : result.LastInsertId = .ok id) :
    (repo.CreateBreeder db s b).err = none ∧
    (repo.CreateBreeder db s b).value.ID = id ∧
    OwnerCalls db id s1 (elems b.Owners) (elems (repo.CreateBreeder db s b).value.Owners)
      (repo.CreateBreeder db s b).store := by
  rw [CreateBreeder_after_insert db s s1 b result id hp hv he hi]
  refine ⟨rfl, rfl, ?_⟩
  have hl : len b.Owners ≠ 0 := fun h => hv (Or.inr (Or.inl h))
  simp only [elems_map_const _ _ hl]
  exact createOwners_calls db id (elems b.Owners) s1

theorem CreateBreeder_ignores_owner_errors_witness :
    (repo.CreateOwner (memDB .lenient) savedStore 1
      { jane with Forename := "", Email := "joe@example.com" }).err = some .errRepo ∧
    (repo.CreateBreeder (memDB .lenient) Store.empty ashworthTwo).err = none ∧
    (repo.CreateBreeder (memDB .lenient) Store.empty ashworthTwo).value.ID = 1 ∧
    OwnerCalls (memDB .lenient) 1
      { breeders := [⟨1, "Ashworth", "ASH", "ashworth.example", true⟩], owners := [],
        breeder_owners := [] }
      (elems ashworthTwo.Owners)
      (elems (repo.CreateBreeder (memDB .lenient) Store.empty ashworthTwo).value.Owners)
      (repo.CreateBreeder (memDB .lenient) Store.empty ashworthTwo).store :=
  ⟨by decide,
    CreateBreeder_ignores_owner_errors (memDB .lenient) Store.empty
      { breeders := [⟨1, "Ashworth", "ASH", "ashworth.example", true⟩], owners := [],
        breeder_owners := [] }
      ashworthTwo ⟨.ok 1⟩ 1 rfl (by decide) rfl rfl⟩

/-- The executions `CreateOwner` adds to the log of a recording client are
inserts into `owners`. -/
theorem CreateOwner_recorder_statements (log : List Call) (id : Int) (o : Owner) :
    ∀ c ∈ (repo.CreateOwner recorder log id o).store, c ∈ log ∨ c.1 = .InsertOwner := by
  intro c hc
  by_cases hv : o.Forename = "" ∨ o.Surname = "" ∨ o.Address = "" ∨ o.Email = ""
  · simp only [repo.CreateOwner, recorder, if_pos hv] at hc
    exact Or.inl hc
  · simp only [repo.CreateOwner, recorder, if_neg hv, List.mem_append,
      List.mem_singleton] at hc
    rcases hc with hc | hc
    · exact Or.inl hc
    · exact Or.inr (by rw [hc])

/-- The executions the owner loop adds are inserts into `owners`. -/
theorem createOwners_recorder_statements (os : List Owner) (log : List Call) (id : Int) :
    ∀ c ∈ (repo.createOwners recorder id log os).2, c ∈ log ∨ c.1 = .InsertOwner := by
  induction os generalizing log with
  | nil => intro c hc; exact Or.inl hc
  | cons o os ih =>
    intro c hc
    simp only [repo.createOwners] at hc
    rcases ih _ c hc with h | h
    · exact CreateOwner_recorder_statements log id o c h
    · exact Or.inr h

/-- On a client that accepts every call, `CreateBreeder` executes nothing but
the insert of the breeder and inserts of owners, for every breeder: the
statement `AssociateBreederOwner` is never executed. -/
theorem CreateBreeder_recorder_statements (b : Breeder) :
    ∀ c ∈ (repo.CreateBreeder recorder [] b).store,
      c.1 = .InsertBreeder ∨ c.1 = .InsertOwner := by
  intro c hc
  by_cases hv : b.Affix = "" ∨ len b.Owners = 0 ∨ b.ShortAffix = "" ∨ b.Website = ""
  · simp [repo.CreateBreeder, recorder, hv] at hc
  · simp only [repo.CreateBreeder, recorder, if_neg hv] at hc
    rcases createOwners_recorder_statements _ _ _ c hc with h | h
    · simp only [List.nil_append, List.mem_singleton] at h
      exact Or.inl (by rw [h])
    · exact Or.inr h

/-- C5 (the code does not do this).  Behind the driver the repository opens,
`CreateBreeder` of the scenario breeder on the empty store returns the error
of its refused insert: the breeder keeps ID 0, its owner keeps ID 0, and the
three relations stay empty, so `breeder_owners` does not gain its one row. -/
theorem C5_scenario_assigns_nothing :
    (repo.CreateBreeder (memDB .standard) Store.empty ashworth).err =
      some (.wrap
        (.sql "sql: converting argument $4 type: unsupported type model.Breeder, a struct")
        "Failed to execute prepared insert statement") ∧
    (repo.CreateBreeder (memDB .standard) Store.empty ashworth).value.ID = 0 ∧
    (repo.CreateBreeder (memDB .standard) Store.empty ashworth).value.Owners = some [jane] ∧
    jane.ID = 0 ∧
    (repo.CreateBreeder (memDB .standard) Store.empty ashworth).store.breeders = [] ∧
    (repo.CreateBreeder (memDB .standard) Store.empty ashworth).store.owners = [] ∧
    (repo.CreateBreeder (memDB .standard) Store.empty ashworth).store.breeder_owners = [] ∧
    (repo.CreateBreeder (memDB .standard) Store.empty ashworth).store.breeder_owners.length
      ≠ Store.empty.breeder_owners.length + 1 := by
  decide
